import Mathlib

/-!
# Verification of `qp_woltka/woltka.py`

A shallow embedding of the job-array planner, per-slot index arithmetic,
merge-script builder and output validator of `qp_woltka/woltka.py`,
together with proofs of the specified properties.

Conventions of the embedding:
* Python `int(ceil(a / b))` on positive integers is the exact natural-number
  ceiling division `ceilDiv`.
* `raise`/`assert` failures become `Except`/`PyError` values; a function that
  returns `.error` has written none of the files its `.ok` payload describes.
* The generated shell fragments that each array slot executes are given a
  semantic model (`candidateLines`, `runBlocks`, ...) mirroring the emitted
  loop of `_to_array` line by line.
-/

namespace QpWoltka

/-- Embedding of Python `int(ceil(a / b))` for natural `a` and positive `b`
(used at `woltka.py:49-50`). -/
def ceilDiv (a b : Nat) : Nat := (a + b - 1) / b

/-- The job plan computed by `_to_array` (`woltka.py:48-53`): `per_job` is the
number of manifest lines packed into one array slot, `n_jobs` the number of
array slots. -/
structure JobPlan where
  per_job : Nat
  n_jobs : Nat
deriving DecidableEq, Repr

/-- `woltka.py:41-53`: `max_jobs = 1024` is the array-ID capacity; if
`n_files > max_jobs` then `per_job = ceil(n_files / max_jobs)` and
`n_jobs = ceil(n_files / per_job)`, else one file per slot. -/
def plan (n_files max_jobs : Nat) : JobPlan :=
  if n_files > max_jobs then
    { per_job := ceilDiv n_files max_jobs,
      n_jobs := ceilDiv n_files (ceilDiv n_files max_jobs) }
  else
    { per_job := 1, n_jobs := n_files }

/-! ## Semantics of the per-slot index arithmetic

`_to_array` emits, for array slot `$PBS_ARRAYID = slotId`, the shell fragment
(`woltka.py:76-95`):

    offset = slotId                (then offset = slotId * per_job if per_job > 1)
    for i in reversed(range(per_job)):
        step = offset - i
        if step > n_files: exit 0
        <process manifest line `step`>

We model the sequence of `step` values in emission order, and the exit-on-
overrange execution of the emitted blocks. -/

/-- The manifest line numbers computed by the emitted blocks of a slot, in
emission order: `base - i` for `i = per_job - 1, ..., 0` where
`base = slotId * per_job` (`woltka.py:76-89`; when `per_job = 1` the base is
`slotId * 1 = slotId`, matching the script that skips the multiplication). -/
def candidateLines (slotId per_job : Nat) : List Nat :=
  (List.range per_job).reverse.map (fun i => slotId * per_job - i)

/-- Execution of the emitted blocks: `if [[ $step -gt n_files ]]; then exit 0; fi`
terminates the whole slot script, so the lines actually processed are the steps
before the first over-range one (`woltka.py:88-95`). -/
def runBlocks (n_files : Nat) : List Nat → List Nat
  | [] => []
  | st :: rest => if n_files < st then [] else st :: runBlocks n_files rest

/-- The steps whose guard is actually evaluated by the slot script: every step
up to and including the first over-range one; after `exit 0` no later block
runs (`woltka.py:92`). -/
def attemptedBlocks (n_files : Nat) : List Nat → List Nat
  | [] => []
  | st :: rest => if n_files < st then [st] else st :: attemptedBlocks n_files rest

/-- Modelled from the spec: the behaviour §4.2 describes for an over-range
position — "this particular local position is skipped ... subsequent lower
`offset` values in the same slot are still attempted" — i.e. skip-and-continue
instead of the script's `exit 0`. -/
def runBlocksSkip (n_files : Nat) : List Nat → List Nat
  | [] => []
  | st :: rest =>
    if n_files < st then runBlocksSkip n_files rest
    else st :: runBlocksSkip n_files rest

/-- `resolve slotId per_job n_files`: the manifest line numbers that slot
`slotId` actually processes (IndexResolver of the spec, §4.2). -/
def resolve (slotId per_job n_files : Nat) : List Nat :=
  runBlocks n_files (candidateLines slotId per_job)

/-- The concatenation, over all slots `1..n_jobs`, of the lines each slot
processes (the SlotAssignment union of the spec, §3). -/
def allSlots (n_jobs per_job n_files : Nat) : List Nat :=
  (List.range n_jobs).flatMap (fun s => resolve (s + 1) per_job n_files)

/-! ## Script generation, merge planning and validation

The remaining functions of `woltka.py` raise Python exceptions on bad input;
we embed them as `Except PyError` values. A function's `.ok` payload lists the
files it writes, so `.error` means nothing was written. -/

/-- The Python exceptions raised by `woltka.py`: `IndexError` from `[...][0]`
on an empty list, `AssertionError` from `assert`, `ValueError` from `raise`. -/
inductive PyError where
  | indexError : PyError
  | assertionError : String → PyError
  | valueError : String → PyError
deriving DecidableEq, Repr

/-- Resource constants (woltka.py:21-26). -/
def PPN : Nat := 8

def MEMORY : String := "64g"

def WALLTIME : String := "10:00:00"

def MERGE_MEMORY : String := "48g"

def MERGE_WALLTIME : String := "4:00:00"

def MAX_RUNNING : Nat := 8

/-- Embedding of Python `s.endswith(suffix)` via character lists. -/
def strEndsWith (s suffix : String) : Bool :=
  decide (suffix.toList <:+ s.toList)

/-- Embedding of Python `sub in s` (substring containment) via character
lists. -/
def containsSub (s sub : String) : Bool :=
  decide (sub.toList <:+: s.toList)

/-- Embedding of `re.match(r'\d+:\d\d:\d\d', walltime) is not None`
(woltka.py:36). `re.match` anchors at the start only (any tail is accepted);
`\d+` is greedy, and since the next token `:` is not a digit, taking the
maximal digit run is equivalent to backtracking. -/
def walltimeMatch (s : String) : Bool :=
  let cs := s.toList
  let ds := cs.takeWhile Char.isDigit
  let rest := cs.drop ds.length
  decide (ds ≠ []) &&
    match rest with
    | ':' :: a :: b :: ':' :: c :: d :: _ =>
      a.isDigit && b.isDigit && c.isDigit && d.isDigit
    | _ => false

/-- Embedding of `os.path.basename`: the component after the last `/`. -/
def basename (f : String) : String :=
  (f.splitOn "/").getLastD f

/-- Embedding of `command_format.format(infile=..., outfile=...)`
(woltka.py:109-110): substitution of the two placeholder tokens. -/
def formatCmd (fmt infile outfile : String) : String :=
  (fmt.replace "{infile}" infile).replace "{outfile}" outfile

/-- Embedding of `_process_database_files` (woltka.py:123-133). The
filesystem access `glob(f'{database_fp}*')` is abstracted as the parameter
`files` holding the glob's matches; `[f for f in files if f.endswith('.tax')][0]`
raises `IndexError` when no match ends in `.tax`, and the `.coords` companion
is optional (`None` when absent). -/
def _process_database_files (files : List String) :
    Except PyError (String × Option String) :=
  match files.filter (fun f => strEndsWith f ".tax") with
  | [] => .error .indexError
  | t :: _ => .ok (t, (files.filter (fun f => strEndsWith f ".coords")).head?)

/-- The preparation-information table read by `pd.read_csv` (woltka.py:154),
reduced to the pieces the code consults: the column names and the
`run_prefix` column's values, one per row. -/
structure Prep where
  columns : List String
  run_prefix : List String
deriving DecidableEq, Repr

/-- The taxonomic ranks (woltka.py:184). -/
def ranks : List String := ["phylum", "genus", "species", "free", "none"]

/-- One ordinary merge command (woltka.py:209-213), modelled as its list of
space-separated tokens; `merge_inv` ends in a space, so the `" ".join` leaves
an empty token after the base argument. -/
def mergeWords (preparation_information output r glob : String) : List String :=
  ["woltka_merge", "--prep", preparation_information, "--base", output, "",
   "--name", r, "--glob", glob, "&"]

/-- The `merges` list built by the `for r in ranks` loop (woltka.py:209-213). -/
def ordinaryMerges (rks : List String) (preparation_information output : String) :
    List (List String) :=
  rks.map (fun r =>
    mergeWords preparation_information output r
      ("\"*.woltka-taxa/" ++ r ++ ".biom\""))

/-- The merge-command list of `woltka_to_array` (woltka.py:206-222): one
command per rank; with gene coordinates an extra `per-gene` command carrying
`--rename`, otherwise `--rename` spliced into the last ordinary command via
`merges[-1].split(' ')` — which raises `IndexError` on an empty command
list. Commands are modelled as token lists (exact when the path arguments
contain no spaces). -/
def buildMerges (rks : List String) (preparation_information output : String)
    (hasCoords : Bool) : Except PyError (List (List String)) :=
  if hasCoords then
    .ok (ordinaryMerges rks preparation_information output ++
      [["woltka_merge", "--prep", preparation_information, "--base", output,
        "", "--name", "per-gene", "--glob", "\"*.woltka-per-gene\"",
        "--rename", "&"]])
  else
    match (ordinaryMerges rks preparation_information output).getLast? with
    | none => .error .indexError
    | some m =>
      .ok ((ordinaryMerges rks preparation_information output).dropLast ++
        [m.dropLast ++ ["--rename"] ++ [m.getLastD ""]])

/-- The merge planning and task-count check of `woltka_to_array`
(woltka.py:206-228) as a standalone operation over the partition keys: builds
the merge commands, then `assert n_merges < 32`. -/
def mergeScheduler (rks : List String) (preparation_information output : String)
    (hasCoords : Bool) : Except PyError (List (List String)) :=
  match buildMerges rks preparation_information output hasCoords with
  | .error e => .error e
  | .ok merges =>
    if merges.length < 32 then .ok merges
    else .error (.assertionError "n_merges < 32")

/-- `True` exactly when a merge command carries the `--rename` flag. -/
def hasRenameFlag (ws : List String) : Bool := decide ("--rename" ∈ ws)

/-- Embedding of `_to_array` (woltka.py:31-120). The `.ok` payload is the
list of files written, as (path, lines) pairs — the `.array-details` manifest
and the `.qsub` script; a failing `assert` yields `.error` before anything is
written. The awk braces and quotes of the emitted text are spelled with
character escapes. -/
def _to_array (directory output : String) (max_running ppn : Nat)
    (walltime environment command_format memory name output_extension : String)
    (files : List String) : Except PyError (List (String × List String)) :=
  if files.length = 0 then .error (.assertionError "len(files) > 0")
  else if ppn = 0 then .error (.assertionError "ppn > 0")
  else if walltimeMatch walltime = false then
    .error (.assertionError "re.match walltime is not None")
  else if containsSub command_format "{infile}" = false then
    .error (.assertionError "{infile} in command_format")
  else if containsSub command_format "{outfile}" = false then
    .error (.assertionError "{outfile} in command_format")
  else
    let max_jobs := 1024
    let n_files := files.length
    let pl := plan n_files max_jobs
    let details_name := output ++ "/" ++ name ++ ".array-details"
    let details := files.map (fun f =>
      f ++ "\t" ++ output ++ "/" ++ basename f ++ "." ++ output_extension)
    let header := ["#!/bin/bash",
      "#PBS -M qiita.help@gmail.com",
      "#PBS -N " ++ name,
      "#PBS -l nodes=1:ppn=" ++ toString ppn,
      "#PBS -l walltime=" ++ walltime,
      "#PBS -l mem=" ++ memory,
      "#PBS -o " ++ output ++ "/" ++ name ++ "_${PBS_ARRAYID}.log",
      "#PBS -e " ++ output ++ "/" ++ name ++ "_${PBS_ARRAYID}.err",
      "#PBS -t 1-" ++ toString pl.n_jobs ++ "%" ++ toString max_running,
      "cd " ++ output,
      environment,
      "date",
      "hostname",
      "offset=${PBS_ARRAYID}"]
    let adjust := if pl.per_job > 1 then
      ["offset=$(( $offset * " ++ toString pl.per_job ++ " ))"]
    else []
    let blocks := (List.range pl.per_job).reverse.flatMap (fun i =>
      ["step=$(( $offset - " ++ toString i ++ " ))",
       "if [[ $step -gt " ++ toString n_files ++ " ]]; then exit 0; fi",
       "args" ++ toString i ++ "=$(head -n $step " ++ details_name ++
         " | tail -n 1)",
       "infile" ++ toString i ++ "=$(echo -e $args" ++ toString i ++
         " | awk \x27\x7b print $1 \x7d\x27)",
       "outfile" ++ toString i ++ "=$(echo -e $args" ++ toString i ++
         " | awk \x27\x7b print $2 \x7d\x27)",
       "set -e",
       formatCmd command_format ("$infile" ++ toString i)
         ("$outfile" ++ toString i),
       "set +e"])
    let lines := header ++ adjust ++ blocks ++ ["date"]
    let qsub_fp := output ++ "/" ++ name ++ ".qsub"
    .ok [(details_name, details), (qsub_fp, lines)]

/-- Embedding of `woltka_to_array` (woltka.py:136-258). The filesystem glob
for the database prefix is abstracted as `dbFiles`; the environment variable
as `environment`; the parsed preparation table as `prep`. The `.ok` payload
lists the written files: the manifest, the main `.qsub` and the
`.merge.qsub`. -/
def woltka_to_array (dbFiles : List String)
    (directory output database_bowtie2 preparation_information url name
      environment : String) (prep : Prep) :
    Except PyError (List (String × List String)) :=
  match _process_database_files dbFiles with
  | .error e => .error e
  | .ok (database_taxonomy, database_gene_coordinates) =>
    if ("run_prefix" ∈ prep.columns) = false then
      .error (.valueError
        "Prep information is missing the required run_prefix column")
    else if prep.run_prefix.dedup.length ≠ prep.run_prefix.length then
      .error (.valueError "The run_prefix values are not unique for each sample")
    else
      let files := prep.run_prefix.map (fun rp => directory ++ "/" ++ rp)
      let concat := "cat {infile}*.fastq.gz > {outfile}.fastq.gz"
      let bowtie2 := "bowtie2 -p " ++ toString PPN ++ " -x " ++
        database_bowtie2 ++
        " -q {outfile}.fastq.gz -S {outfile}.sam --seed 42 " ++
        "--very-sensitive -k 16 --np 1 --mp \"1,1\" " ++
        "--rdg \"0,1\" --rfg \"0,1\" --score-min " ++
        "\"L,0,-0.05\" --no-head --no-unal"
      let xz := "xz -9 -T" ++ toString PPN ++ " -c {outfile}.sam > {outfile}.xz"
      let woltka_cls := "woltka classify -i {outfile}.sam " ++
        "-o {outfile}.woltka-taxa --no-demux --lineage " ++
        database_taxonomy ++ " --rank " ++ String.intercalate "," ranks
      let cmd_fmt := match database_gene_coordinates with
        | some coords =>
          concat ++ "; " ++ bowtie2 ++ "; " ++ woltka_cls ++ "; " ++
            ("woltka classify -i {outfile}.sam -c " ++ coords ++
              " -o {outfile}.woltka-per-gene --no-demux") ++ "; " ++ xz
        | none => concat ++ "; " ++ bowtie2 ++ "; " ++ woltka_cls ++ "; " ++ xz
      match buildMerges ranks preparation_information output
        database_gene_coordinates.isSome with
      | .error e => .error e
      | .ok merges =>
        if merges.length < 32 then
          match _to_array directory output MAX_RUNNING PPN WALLTIME
            environment cmd_fmt MEMORY name "sam" files with
          | .error e => .error e
          | .ok written =>
            let merge_lines := ["#!/bin/bash",
              "#PBS -M qiita.help@gmail.com",
              "#PBS -N merge-" ++ name,
              "#PBS -l nodes=1:ppn=" ++ toString merges.length,
              "#PBS -l walltime=" ++ MERGE_WALLTIME,
              "#PBS -l mem=" ++ MERGE_MEMORY,
              "#PBS -o " ++ output ++ "/merge-" ++ name ++ ".log",
              "#PBS -e " ++ output ++ "/merge-" ++ name ++ ".err",
              "cd " ++ output,
              environment,
              "date",
              "hostname",
              "set -e",
              String.intercalate "\n" (merges.map (String.intercalate " ")),
              "wait",
              "cd " ++ output ++ "; tar -cvf alignment.tar *.sam.xz\n" ++
                "finish_woltka " ++ url ++ " " ++ name ++ " " ++ output ++ "\n" ++
                "date"]
            .ok (written ++
              [(output ++ "/" ++ name ++ ".merge.qsub", merge_lines)])
        else .error (.assertionError "n_merges < 32")

/-- A produced artifact, as passed to `ArtifactInfo` (woltka.py:288-325). -/
structure ArtifactInfo where
  name : String
  artifact_type : String
  files : List (String × String)
deriving DecidableEq, Repr

/-- The report accumulation of `woltka` (woltka.py:283-328), with the
filesystem's `exists` abstracted as the predicate `ex`. The in-place BIOM
taxonomy rewrite for present rank tables (woltka.py:300-305) mutates the
artifact's file externally and does not change the accumulated report. -/
def woltkaChecks (ex : String → Bool) (hasCoords : Bool) (out_dir : String) :
    List ArtifactInfo × List String :=
  let fp_free := out_dir ++ "/free.biom"
  let fp_alng := out_dir ++ "/alignment.tar"
  let (ainfo, errors) :=
    if ex fp_free && ex fp_alng then
      ([ArtifactInfo.mk "Alignment Profile" "BIOM"
          [(fp_free, "biom"), (fp_alng, "log")]],
       ([] : List String))
    else
      ([], ["Missing files from the \"Alignment Profile\"; please contact " ++
        "qiita.help@gmail.com for more information"])
  let (ainfo, errors) := (["phylum", "genus", "species"]).foldl
    (fun acc rank =>
      let fp := out_dir ++ "/" ++ rank ++ ".biom"
      if ex fp then
        (acc.1 ++ [ArtifactInfo.mk ("Taxonomic Predictions - " ++ rank)
          "BIOM" [(fp, "biom")]], acc.2)
      else
        (acc.1, acc.2 ++ ["Table " ++ rank ++ " was not created, please " ++
          "contact qiita.help@gmail.com for more information"]))
    (ainfo, errors)
  let fp_none := out_dir ++ "/none.biom"
  let (ainfo, errors) :=
    if ex fp_none then
      (ainfo ++ [ArtifactInfo.mk "Per genome Predictions" "BIOM"
        [(fp_none, "biom")]], errors)
    else
      (ainfo, errors ++ ["Table none/per-genome was not created, please " ++
        "contact qiita.help@gmail.com for more information"])
  if hasCoords then
    let fp_pg := out_dir ++ "/per-gene.biom"
    if ex fp_pg then
      (ainfo ++ [ArtifactInfo.mk "Per gene Predictions" "BIOM"
        [(fp_pg, "biom")]], errors)
    else
      (ainfo, errors ++ ["Table per-gene was not created, please contact " ++
        "qiita.help@gmail.com for more information"])
  else (ainfo, errors)

/-- Embedding of `woltka` (woltka.py:261-334): processes the database files
(which can raise `IndexError`), then accumulates the validation report and
returns `(success, producedArtifacts, errorText)`. -/
def woltka (dbFiles : List String) (ex : String → Bool) (out_dir : String) :
    Except PyError (Bool × List ArtifactInfo × String) :=
  match _process_database_files dbFiles with
  | .error e => .error e
  | .ok (_, database_gene_coordinates) =>
    let (ainfo, errors) :=
      woltkaChecks ex database_gene_coordinates.isSome out_dir
    if errors.isEmpty then .ok (true, ainfo, "")
    else .ok (false, ainfo, String.intercalate "\n" errors)

theorem ceilDiv_le_iff {b : Nat} (hb : 0 < b) (a c : Nat) :
    ceilDiv a b ≤ c ↔ a ≤ c * b := by
  unfold ceilDiv
  rw [← Nat.lt_succ_iff, Nat.div_lt_iff_lt_mul hb, Nat.succ_mul]
  have h : ∀ k : Nat, a + b - 1 < k + b ↔ a ≤ k := by
    intro k; omega
  exact h (c * b)

theorem le_mul_ceilDiv {b : Nat} (hb : 0 < b) (a : Nat) :
    a ≤ ceilDiv a b * b :=
  (ceilDiv_le_iff hb a (ceilDiv a b)).mp le_rfl

theorem ceilDiv_pos {a b : Nat} (ha : 0 < a) (hb : 0 < b) :
    0 < ceilDiv a b := by
  rcases Nat.eq_zero_or_pos (ceilDiv a b) with h | h
  · exfalso
    have := (ceilDiv_le_iff hb a 0).mp (le_of_eq h)
    omega
  · exact h

theorem pred_mul_ceilDiv_lt {a b : Nat} (ha : 0 < a) (hb : 0 < b) :
    (ceilDiv a b - 1) * b < a := by
  by_contra hcon
  push_neg at hcon
  have h1 : ceilDiv a b ≤ ceilDiv a b - 1 := (ceilDiv_le_iff hb a _).mpr hcon
  have h2 : 0 < ceilDiv a b := ceilDiv_pos ha hb
  omega

theorem ceilDiv_one (a : Nat) : ceilDiv a 1 = a := by
  unfold ceilDiv; simp

theorem plan_per_job_pos {n c : Nat} (hn : 0 < n) (hc : 0 < c) :
    0 < (plan n c).per_job := by
  unfold plan
  split
  · exact ceilDiv_pos hn hc
  · exact Nat.one_pos

theorem plan_per_job_spec {n c : Nat} (hc : 0 < c) :
    (plan n c).per_job = if n ≤ c then 1 else ceilDiv n c := by
  unfold plan
  rcases Nat.lt_or_ge c n with h | h
  · simp [h, Nat.not_le.mpr h]
  · simp [Nat.not_lt.mpr h, h]

theorem plan_n_jobs_spec {n c : Nat} (hn : 0 < n) (hc : 0 < c) :
    (plan n c).n_jobs = ceilDiv n (plan n c).per_job := by
  unfold plan
  split
  · rfl
  · simp [ceilDiv_one]

theorem plan_n_jobs_le {n c : Nat} (hn : 0 < n) (hc : 0 < c) :
    (plan n c).n_jobs ≤ c := by
  unfold plan
  split
  · next h =>
    have hk : 0 < ceilDiv n c := ceilDiv_pos hn hc
    rw [ceilDiv_le_iff hk]
    rw [Nat.mul_comm]
    exact le_mul_ceilDiv hc n
  · next h => exact Nat.not_lt.mp h

theorem candidateLines_eq_range' {s p : Nat} (hs : 1 ≤ s) :
    candidateLines s p = List.range' ((s - 1) * p + 1) p := by
  have key : ∀ (p b : Nat), p ≤ b →
      (List.range p).reverse.map (fun i => b - i) = List.range' (b - p + 1) p := by
    intro p
    induction p with
    | zero => intro b _; simp
    | succ q ih =>
      intro b hb
      rw [List.range_succ, List.reverse_append]
      simp only [List.reverse_cons, List.reverse_nil, List.nil_append,
        List.singleton_append, List.map_cons]
      rw [ih b (by omega)]
      have h1 : b - (q + 1) + 1 = b - q := by omega
      rw [h1, List.range'_succ]
  unfold candidateLines
  have hp : p ≤ s * p := Nat.le_mul_of_pos_left p hs
  rw [key p (s * p) hp]
  congr 1
  rw [Nat.sub_mul, Nat.one_mul]

theorem runBlocks_eq_takeWhile (n : Nat) (l : List Nat) :
    runBlocks n l = l.takeWhile (fun st => decide (st ≤ n)) := by
  induction l with
  | nil => rfl
  | cons st rest ih =>
    unfold runBlocks
    rw [List.takeWhile_cons]
    rcases Nat.lt_or_ge n st with h | h
    · simp [h, Nat.not_le.mpr h]
    · simp [Nat.not_lt.mpr h, h, ih]

theorem runBlocksSkip_eq_filter (n : Nat) (l : List Nat) :
    runBlocksSkip n l = l.filter (fun st => decide (st ≤ n)) := by
  induction l with
  | nil => rfl
  | cons st rest ih =>
    unfold runBlocksSkip
    rw [List.filter_cons]
    rcases Nat.lt_or_ge n st with h | h
    · simp [h, Nat.not_le.mpr h, ih]
    · simp [Nat.not_lt.mpr h, h, ih]

theorem takeWhile_le_range' (n : Nat) : ∀ (k a : Nat),
    (List.range' a k).takeWhile (fun st => decide (st ≤ n)) =
      List.range' a (min k (n + 1 - a)) := by
  intro k
  induction k with
  | zero => intro a; simp
  | succ q ih =>
    intro a
    rw [List.range'_succ, List.takeWhile_cons]
    rcases Nat.lt_or_ge n a with h | h
    · have : min (q + 1) (n + 1 - a) = 0 := by omega
      simp [Nat.not_le.mpr h, this]
    · have h1 : min (q + 1) (n + 1 - a) = min q (n + 1 - (a + 1)) + 1 := by omega
      rw [h1, List.range'_succ]
      simp [h, ih (a + 1)]

theorem filter_le_range' (n : Nat) : ∀ (k a : Nat),
    (List.range' a k).filter (fun st => decide (st ≤ n)) =
      List.range' a (min k (n + 1 - a)) := by
  have none_le : ∀ (k a : Nat), n < a →
      (List.range' a k).filter (fun st => decide (st ≤ n)) = [] := by
    intro k
    induction k with
    | zero => intro a _; simp
    | succ q ih =>
      intro a ha
      rw [List.range'_succ, List.filter_cons]
      simp [Nat.not_le.mpr ha, ih (a + 1) (by omega)]
  intro k
  induction k with
  | zero => intro a; simp
  | succ q ih =>
    intro a
    rw [List.range'_succ, List.filter_cons]
    rcases Nat.lt_or_ge n a with h | h
    · have h0 : min (q + 1) (n + 1 - a) = 0 := by omega
      simp only [Nat.not_le.mpr h, decide_eq_true_eq, h0]
      simp [none_le q (a + 1) (by omega), h]
    · have h1 : min (q + 1) (n + 1 - a) = min q (n + 1 - (a + 1)) + 1 := by omega
      rw [h1, List.range'_succ]
      simp [h, ih (a + 1)]

/-- A slot whose last candidate line is still in range processes its full
block of `per_job` consecutive lines. -/
theorem resolve_full {s p n : Nat} (hs : 1 ≤ s) (hp : 0 < p) (h : s * p ≤ n) :
    resolve s p n = List.range' ((s - 1) * p + 1) p := by
  unfold resolve
  rw [candidateLines_eq_range' hs, runBlocks_eq_takeWhile, takeWhile_le_range']
  congr 1
  have hle : p ≤ s * p := Nat.le_mul_of_pos_left p hs
  have : (s - 1) * p + p = s * p := by
    rw [Nat.sub_mul, Nat.one_mul]
    omega
  omega

/-- The final (possibly partial) slot processes exactly the lines from its
base up to `n_files`. -/
theorem resolve_last {s p n : Nat} (hs : 1 ≤ s) (h1 : (s - 1) * p < n)
    (h2 : n ≤ s * p) :
    resolve s p n = List.range' ((s - 1) * p + 1) (n - (s - 1) * p) := by
  unfold resolve
  rw [candidateLines_eq_range' hs, runBlocks_eq_takeWhile, takeWhile_le_range']
  congr 1
  have : (s - 1) * p + p = s * p := by
    rw [Nat.sub_mul, Nat.one_mul]
    have : p ≤ s * p := Nat.le_mul_of_pos_left p hs
    omega
  omega

theorem allSlots_full (p n : Nat) (hp : 0 < p) : ∀ (m : Nat), m * p ≤ n →
    allSlots m p n = List.range' 1 (m * p) := by
  intro m
  induction m with
  | zero => intro _; simp [allSlots]
  | succ q ih =>
    intro h
    unfold allSlots
    rw [List.range_succ, List.flatMap_append]
    have hq : q * p ≤ n := by
      have : q * p ≤ (q + 1) * p := Nat.mul_le_mul_right p (Nat.le_succ q)
      omega
    rw [show (List.range q).flatMap (fun s => resolve (s + 1) p n) =
          allSlots q p n from rfl, ih hq]
    simp only [List.flatMap_cons, List.flatMap_nil, List.append_nil]
    rw [resolve_full (by omega) hp (by simpa using h)]
    have hbase : (q + 1 - 1) * p + 1 = 1 + 1 * (q * p) := by
      simp [Nat.add_comm]
    rw [hbase, List.range'_append 1 (q * p) p 1]
    congr 1
    rw [Nat.succ_mul]
    omega

/-- Partition theorem: with `m = ceilDiv n p` slots of `p` lines each, the
concatenation of the lines processed by slots `1..m` is exactly
`[1, 2, ..., n]`. -/
theorem allSlots_eq_range' {p n : Nat} (hp : 0 < p) (hn : 0 < n) :
    allSlots (ceilDiv n p) p n = List.range' 1 n := by
  have hm1 : 1 ≤ ceilDiv n p := ceilDiv_pos hn hp
  have hlast : (ceilDiv n p - 1) * p < n := pred_mul_ceilDiv_lt hn hp
  have hub : n ≤ ceilDiv n p * p := le_mul_ceilDiv hp n
  set m := ceilDiv n p with hm
  have hsplit : m = (m - 1) + 1 := by omega
  rw [hsplit]
  unfold allSlots
  rw [List.range_succ, List.flatMap_append]
  rw [show (List.range (m - 1)).flatMap (fun s => resolve (s + 1) p n) =
        allSlots (m - 1) p n from rfl]
  rw [allSlots_full p n hp (m - 1) (by omega)]
  simp only [List.flatMap_cons, List.flatMap_nil, List.append_nil]
  rw [show (m - 1) + 1 = m from by omega, resolve_last hm1 hlast hub]
  have hbase : (m - 1) * p + 1 = 1 + 1 * ((m - 1) * p) := by
    simp [Nat.add_comm]
  rw [hbase, List.range'_append 1 ((m - 1) * p) (n - (m - 1) * p) 1]
  congr 1
  omega

theorem sub_one_mul_add {s : Nat} (p : Nat) (hs : 1 ≤ s) :
    (s - 1) * p + p = s * p := by
  have hle : p ≤ s * p := Nat.le_mul_of_pos_left p hs
  rw [Nat.sub_mul, Nat.one_mul]
  omega

/-- C1: for every `totalItems > 0` and `capacity > 0` the computed plan has
`itemsPerSlot = 1` when `totalItems ≤ capacity` and `ceil(totalItems/capacity)`
otherwise, `slotCount = ceil(totalItems/itemsPerSlot)`, and
`slotCount ≤ capacity`; in particular `plan 2000 1024` gives
`itemsPerSlot = 2` and `slotCount = 1000`. -/
theorem claim_C1 :
    (∀ n c, 0 < n → 0 < c →
      (plan n c).per_job = (if n ≤ c then 1 else ceilDiv n c) ∧
      (plan n c).n_jobs = ceilDiv n (plan n c).per_job ∧
      (plan n c).n_jobs ≤ c) ∧
    plan 2000 1024 = { per_job := 2, n_jobs := 1000 } := by
  constructor
  · intro n c hn hc
    exact ⟨plan_per_job_spec hc, plan_n_jobs_spec hn hc, plan_n_jobs_le hn hc⟩
  · decide

/-- Witness for C1 at `totalItems = 2000`, `capacity = 1024`. -/
theorem claim_C1_witness :
    (plan 2000 1024).per_job = (if 2000 ≤ 1024 then 1 else ceilDiv 2000 1024) ∧
    (plan 2000 1024).n_jobs = ceilDiv 2000 (plan 2000 1024).per_job ∧
    (plan 2000 1024).n_jobs ≤ 1024 :=
  claim_C1.1 2000 1024 (by decide) (by decide)

/-- C2: with the planner's `itemsPerSlot` and `slotCount`, the per-slot index
arithmetic assigns every manifest line `1..totalItems` to exactly one
(slot, offset) pair: the concatenation over slots `1..slotCount` of the lines
each slot processes is exactly `[1, ..., totalItems]` — no duplicates, no item
dropped. -/
theorem claim_C2 : ∀ n c, 0 < n → 0 < c →
    allSlots (plan n c).n_jobs (plan n c).per_job n = List.range' 1 n ∧
    (allSlots (plan n c).n_jobs (plan n c).per_job n).Nodup ∧
    (∀ l, l ∈ allSlots (plan n c).n_jobs (plan n c).per_job n ↔
      1 ≤ l ∧ l ≤ n) := by
  intro n c hn hc
  have hp : 0 < (plan n c).per_job := plan_per_job_pos hn hc
  have h : allSlots (plan n c).n_jobs (plan n c).per_job n = List.range' 1 n := by
    rw [plan_n_jobs_spec hn hc]
    exact allSlots_eq_range' hp hn
  refine ⟨h, ?_, ?_⟩
  · rw [h]
    exact List.nodup_range' 1 n
  · intro l
    rw [h, List.mem_range'_1]
    omega

/-- Witness for C2 at `totalItems = 7`, `capacity = 3`. -/
theorem claim_C2_witness :
    allSlots (plan 7 3).n_jobs (plan 7 3).per_job 7 = List.range' 1 7 ∧
    (allSlots (plan 7 3).n_jobs (plan 7 3).per_job 7).Nodup ∧
    (∀ l, l ∈ allSlots (plan 7 3).n_jobs (plan 7 3).per_job 7 ↔
      1 ≤ l ∧ l ≤ 7) :=
  claim_C2 7 3 (by decide) (by decide)

/-- C3 refutation: at `totalItems = 7`, `capacity = 3` (so `itemsPerSlot = 3`)
slot 3's candidate lines are `[7, 8, 9]`; line 8 is over-range, and the
script's `exit 0` means its block for line 9 — a subsequent lower offset of
the same slot — is never attempted, contrary to the claim that subsequent
lower offsets are still attempted. -/
theorem claim_C3_counterexample :
    plan 7 3 = { per_job := 3, n_jobs := 3 } ∧
    candidateLines 3 3 = [7, 8, 9] ∧
    attemptedBlocks 7 (candidateLines 3 3) = [7, 8] ∧
    9 ∉ attemptedBlocks 7 (candidateLines 3 3) := by
  refine ⟨by decide, by decide, by decide, by decide⟩

/-- C3 as amended: on an over-range line the slot exits cleanly and does not
attempt the remaining blocks, but nothing is lost — the lines it processes are
exactly those the skip-and-continue reading of the spec would process (blocks
are emitted in ascending line order, so every line after an over-range one is
also over-range) — and only the very last slot can have out-of-range
positions. -/
theorem claim_C3_amended : ∀ n c, 0 < n → 0 < c →
    ∀ s, 1 ≤ s → s ≤ (plan n c).n_jobs →
    runBlocks n (candidateLines s (plan n c).per_job) =
      runBlocksSkip n (candidateLines s (plan n c).per_job) ∧
    (s < (plan n c).n_jobs →
      ∀ l ∈ candidateLines s (plan n c).per_job, l ≤ n) := by
  intro n c hn hc s hs hsm
  have hp : 0 < (plan n c).per_job := plan_per_job_pos hn hc
  set p := (plan n c).per_job with hpdef
  constructor
  · rw [candidateLines_eq_range' hs, runBlocks_eq_takeWhile,
      runBlocksSkip_eq_filter, takeWhile_le_range', filter_le_range']
  · intro hlt l hl
    have hmj : (plan n c).n_jobs = ceilDiv n p := plan_n_jobs_spec hn hc
    have hsle : s ≤ ceilDiv n p - 1 := by omega
    have h1 : s * p ≤ (ceilDiv n p - 1) * p := Nat.mul_le_mul_right p hsle
    have h2 : (ceilDiv n p - 1) * p < n := pred_mul_ceilDiv_lt hn hp
    rw [candidateLines_eq_range' hs, List.mem_range'_1] at hl
    have h3 : (s - 1) * p + p = s * p := sub_one_mul_add p hs
    omega

/-- Witness for C3 (amended) at `totalItems = 7`, `capacity = 3`, slot 3. -/
theorem claim_C3_witness :
    runBlocks 7 (candidateLines 3 (plan 7 3).per_job) =
      runBlocksSkip 7 (candidateLines 3 (plan 7 3).per_job) ∧
    (3 < (plan 7 3).n_jobs →
      ∀ l ∈ candidateLines 3 (plan 7 3).per_job, l ≤ 7) :=
  claim_C3_amended 7 3 (by decide) (by decide) 3 (by decide) (by decide)

/-- C4 refutation: the lines a slot processes are returned in ascending, not
descending, order — slot 1 with `itemsPerSlot = 3`, `totalItems = 7`
processes `[1, 2, 3]`, which is not descending. -/
theorem claim_C4_counterexample :
    resolve 1 3 7 = [1, 2, 3] ∧ ¬ List.Sorted (· > ·) (resolve 1 3 7) := by
  refine ⟨by decide, by decide⟩

/-- C4 as amended: `resolve` returns its 1-based manifest line numbers in
strictly ascending order (the emitted loop iterates the offsets descending,
hence the lines ascending); for `totalItems = 7`, `capacity = 3` slot 3's
candidates are `[7, 8, 9]`, filtered to `[7]`, so the final slot processes
strictly fewer items than `itemsPerSlot`. -/
theorem claim_C4_amended :
    (∀ s p n, 1 ≤ s → List.Sorted (· < ·) (resolve s p n)) ∧
    plan 7 3 = { per_job := 3, n_jobs := 3 } ∧
    candidateLines 3 3 = [7, 8, 9] ∧
    resolve 3 3 7 = [7] ∧
    (resolve 3 3 7).length < (plan 7 3).per_job := by
  refine ⟨?_, by decide, by decide, by decide, by decide⟩
  intro s p n hs
  unfold resolve
  rw [candidateLines_eq_range' hs, runBlocks_eq_takeWhile, takeWhile_le_range']
  exact List.pairwise_lt_range' _ _

/-- Witness for C4 (amended) at slot 3, `itemsPerSlot = 3`, `totalItems = 7`. -/
theorem claim_C4_witness : List.Sorted (· < ·) (resolve 3 3 7) :=
  claim_C4_amended.1 3 3 7 (by decide)

theorem rename_not_mem_mergeWords {prepI out r g : String}
    (hp : prepI ≠ "--rename") (ho : out ≠ "--rename")
    (hr : r ≠ "--rename") (hg : g ≠ "--rename") :
    "--rename" ∉ mergeWords prepI out r g := by
  have hp' := Ne.symm hp
  have ho' := Ne.symm ho
  have hr' := Ne.symm hr
  have hg' := Ne.symm hg
  simp [mergeWords, hp', ho', hr', hg']

/-- C5: in every generated merge plan exactly one command carries `--rename`:
the `per-gene` command when the database has gene coordinates, and otherwise
the ordinary command planned last (the `none` rank), which receives the flag
by string surgery. (Stated for path arguments that are not themselves the
literal `--rename`.) -/
theorem claim_C5 (prepI out : String) (hp : prepI ≠ "--rename")
    (ho : out ≠ "--rename") (hc : Bool) :
    ∃ ms, buildMerges ranks prepI out hc = .ok ms ∧
      ms.countP hasRenameFlag = 1 ∧
      hasRenameFlag (ms.getLastD []) = true ∧
      (if hc then "per-gene" else "none") ∈ ms.getLastD [] := by
  have h1 := rename_not_mem_mergeWords (r := "phylum")
    (g := "\"*.woltka-taxa/phylum.biom\"") hp ho (by decide) (by decide)
  have h2 := rename_not_mem_mergeWords (r := "genus")
    (g := "\"*.woltka-taxa/genus.biom\"") hp ho (by decide) (by decide)
  have h3 := rename_not_mem_mergeWords (r := "species")
    (g := "\"*.woltka-taxa/species.biom\"") hp ho (by decide) (by decide)
  have h4 := rename_not_mem_mergeWords (r := "free")
    (g := "\"*.woltka-taxa/free.biom\"") hp ho (by decide) (by decide)
  have h5 := rename_not_mem_mergeWords (r := "none")
    (g := "\"*.woltka-taxa/none.biom\"") hp ho (by decide) (by decide)
  cases hc with
  | true =>
    refine ⟨mergeWords prepI out "phylum" "\"*.woltka-taxa/phylum.biom\"" ::
      mergeWords prepI out "genus" "\"*.woltka-taxa/genus.biom\"" ::
      mergeWords prepI out "species" "\"*.woltka-taxa/species.biom\"" ::
      mergeWords prepI out "free" "\"*.woltka-taxa/free.biom\"" ::
      mergeWords prepI out "none" "\"*.woltka-taxa/none.biom\"" ::
      [["woltka_merge", "--prep", prepI, "--base", out, "", "--name",
        "per-gene", "--glob", "\"*.woltka-per-gene\"", "--rename", "&"]],
      rfl, ?_, ?_, ?_⟩
    · simp [List.countP_cons, hasRenameFlag, h1, h2, h3, h4, h5]
    · simp [hasRenameFlag]
    · simp
  | false =>
    refine ⟨mergeWords prepI out "phylum" "\"*.woltka-taxa/phylum.biom\"" ::
      mergeWords prepI out "genus" "\"*.woltka-taxa/genus.biom\"" ::
      mergeWords prepI out "species" "\"*.woltka-taxa/species.biom\"" ::
      mergeWords prepI out "free" "\"*.woltka-taxa/free.biom\"" ::
      [["woltka_merge", "--prep", prepI, "--base", out, "", "--name",
        "none", "--glob", "\"*.woltka-taxa/none.biom\"", "--rename", "&"]],
      rfl, ?_, ?_, ?_⟩
    · simp [List.countP_cons, hasRenameFlag, h1, h2, h3, h4]
    · simp [hasRenameFlag]
    · simp

/-- Witness for C5 with concrete paths and no gene coordinates. -/
theorem claim_C5_witness :
    ∃ ms, buildMerges ranks "prep.tsv" "outdir" false = .ok ms ∧
      ms.countP hasRenameFlag = 1 ∧
      hasRenameFlag (ms.getLastD []) = true ∧
      (if false then "per-gene" else "none") ∈ ms.getLastD [] :=
  claim_C5 "prep.tsv" "outdir" (by decide) (by decide) false

theorem pdf_ok {dbFiles : List String} {t : String} {ts : List String}
    (h : dbFiles.filter (fun f => strEndsWith f ".tax") = t :: ts) :
    _process_database_files dbFiles =
      .ok (t, (dbFiles.filter (fun f => strEndsWith f ".coords")).head?) := by
  unfold _process_database_files
  rw [h]

theorem pdf_err {dbFiles : List String}
    (h : dbFiles.filter (fun f => strEndsWith f ".tax") = []) :
    _process_database_files dbFiles = .error .indexError := by
  unfold _process_database_files
  rw [h]

/-- C6: the validator evaluates every artifact check independently — the
number of accumulated errors equals the number of failed checks, with no
short-circuiting — and (whenever the database-file lookup succeeds) never
throws for missing outputs, returning
`(success, producedArtifacts, errorText)` with `success` true exactly when
the error list is empty and `errorText` the errors joined by newline. -/
theorem claim_C6 (ex : String → Bool) (out_dir : String) :
    (∀ hc : Bool, (woltkaChecks ex hc out_dir).2.length =
      (if ex (out_dir ++ "/free.biom") && ex (out_dir ++ "/alignment.tar")
        then 0 else 1) +
      ((["phylum", "genus", "species"]).countP
        (fun rank => !(ex (out_dir ++ "/" ++ rank ++ ".biom")))) +
      (if ex (out_dir ++ "/none.biom") then 0 else 1) +
      (if hc && !(ex (out_dir ++ "/per-gene.biom")) then 1 else 0)) ∧
    (∀ (dbFiles : List String) (tax : String) (coords : Option String),
      _process_database_files dbFiles = .ok (tax, coords) →
      woltka dbFiles ex out_dir =
        .ok ((woltkaChecks ex coords.isSome out_dir).2.isEmpty,
          (woltkaChecks ex coords.isSome out_dir).1,
          String.intercalate "\n" (woltkaChecks ex coords.isSome out_dir).2)) := by
  constructor
  · intro hc
    cases h1 : ex (out_dir ++ "/free.biom") <;>
    cases h2 : ex (out_dir ++ "/alignment.tar") <;>
    cases h3 : ex (out_dir ++ "/" ++ "phylum" ++ ".biom") <;>
    cases h4 : ex (out_dir ++ "/" ++ "genus" ++ ".biom") <;>
    cases h5 : ex (out_dir ++ "/" ++ "species" ++ ".biom") <;>
    cases h6 : ex (out_dir ++ "/none.biom") <;>
    cases hc <;>
    cases h7 : ex (out_dir ++ "/per-gene.biom") <;>
    simp [woltkaChecks, h1, h2, h3, h4, h5, h6, h7, List.countP_cons]
  · intro dbFiles tax coords h
    unfold woltka
    rw [h]
    rcases hW : woltkaChecks ex coords.isSome out_dir with ⟨a, e⟩
    cases e with
    | nil => simp [hW, String.intercalate]
    | cons x xs => simp [hW]

/-- Witness for C6: an output directory with no artifact present and a
database with a `.tax` file but no coordinates. -/
theorem claim_C6_witness :
    woltka ["db.tax"] (fun _ => false) "out" =
      .ok ((woltkaChecks (fun _ => false) (none : Option String).isSome
          "out").2.isEmpty,
        (woltkaChecks (fun _ => false) (none : Option String).isSome "out").1,
        String.intercalate "\n"
          (woltkaChecks (fun _ => false) (none : Option String).isSome
            "out").2) :=
  (claim_C6 (fun _ => false) "out").2 ["db.tax"] "db.tax" none (by rfl)

/-- C7: if the preparation metadata lacks the `run_prefix` column, or has
duplicate values in it, `woltka_to_array` aborts with the corresponding
`ValueError` — and, the `.ok` payload being the written files, nothing is
written. (Stated under a successful database-file lookup, which precedes the
metadata checks.) -/
theorem claim_C7 (dbFiles : List String) (directory output database_bowtie2
    preparation_information url name environment : String) (prep : Prep)
    (hdb : dbFiles.filter (fun f => strEndsWith f ".tax") ≠ []) :
    (("run_prefix" ∈ prep.columns) = false →
      woltka_to_array dbFiles directory output database_bowtie2
          preparation_information url name environment prep =
        .error (.valueError
          "Prep information is missing the required run_prefix column")) ∧
    (("run_prefix" ∈ prep.columns) = true →
      prep.run_prefix.dedup.length ≠ prep.run_prefix.length →
      woltka_to_array dbFiles directory output database_bowtie2
          preparation_information url name environment prep =
        .error (.valueError
          "The run_prefix values are not unique for each sample")) := by
  cases hfil : dbFiles.filter (fun f => strEndsWith f ".tax") with
  | nil => exact absurd hfil hdb
  | cons t ts =>
    have hpd := pdf_ok hfil
    constructor
    · intro hcol
      unfold woltka_to_array
      rw [hpd]
      simp [hcol]
    · intro hcol hdup
      unfold woltka_to_array
      rw [hpd]
      simp [hcol, hdup]

/-- Witness for C7: metadata without a `run_prefix` column. -/
theorem claim_C7_witness :
    woltka_to_array ["db.tax"] "dir" "out" "bt2" "prep.tsv" "url" "job" "env"
        (Prep.mk ["sample_name"] ["s1"]) =
      .error (.valueError
        "Prep information is missing the required run_prefix column") :=
  (claim_C7 ["db.tax"] "dir" "out" "bt2" "prep.tsv" "url" "job" "env"
    (Prep.mk ["sample_name"] ["s1"]) (by decide)).1 (by decide)

/-- C8: `_to_array` fails with an `assert` (and writes nothing) whenever the
walltime does not match the `\d+:\d\d:\d\d` pattern or the command template
lacks the `{infile}` or the `{outfile}` placeholder; when all three
validations hold (and the remaining asserts on nonempty input and positive
`ppn` pass) it succeeds. -/
theorem claim_C8 (directory output : String) (max_running ppn : Nat)
    (walltime environment command_format memory name output_extension : String)
    (files : List String) :
    ((walltimeMatch walltime = false ∨
      containsSub command_format "{infile}" = false ∨
      containsSub command_format "{outfile}" = false) →
      ∃ m, _to_array directory output max_running ppn walltime environment
        command_format memory name output_extension files =
        .error (.assertionError m)) ∧
    (walltimeMatch walltime = true →
      containsSub command_format "{infile}" = true →
      containsSub command_format "{outfile}" = true →
      files ≠ [] → 0 < ppn →
      ∃ written, _to_array directory output max_running ppn walltime
        environment command_format memory name output_extension files =
        .ok written) := by
  constructor
  · intro hbad
    by_cases h1 : files.length = 0
    · exact ⟨"len(files) > 0", by simp [_to_array, h1]⟩
    · by_cases h2 : ppn = 0
      · exact ⟨"ppn > 0", by simp [_to_array, h1, h2]⟩
      · by_cases h3 : walltimeMatch walltime = false
        · exact ⟨"re.match walltime is not None",
            by simp [_to_array, h1, h2, h3]⟩
        · by_cases h4 : containsSub command_format "{infile}" = false
          · exact ⟨"{infile} in command_format",
              by simp [_to_array, h1, h2, h3, h4]⟩
          · by_cases h5 : containsSub command_format "{outfile}" = false
            · exact ⟨"{outfile} in command_format",
                by simp [_to_array, h1, h2, h3, h4, h5]⟩
            · rcases hbad with hw | hi | ho2
              · exact absurd hw h3
              · exact absurd hi h4
              · exact absurd ho2 h5
  · intro hw hi ho2 hne hppn
    have h1 : ¬ (files.length = 0) := by
      simp [List.length_eq_zero]
      exact hne
    have h2 : ¬ (ppn = 0) := by omega
    have h3 : ¬ (walltimeMatch walltime = false) := by simp [hw]
    have h4 : ¬ (containsSub command_format "{infile}" = false) := by simp [hi]
    have h5 : ¬ (containsSub command_format "{outfile}" = false) := by
      simp [ho2]
    simp only [_to_array, h1, h2, h3, h4, h5, if_false]
    exact ⟨_, rfl⟩

/-- Witness for C8: a well-formed configuration builds successfully. -/
theorem claim_C8_witness :
    ∃ written, _to_array "dir" "out" 8 8 "10:00:00" "env"
      "cat {infile} > {outfile}" "64g" "job" "sam" ["f1"] = .ok written :=
  (claim_C8 "dir" "out" 8 8 "10:00:00" "env" "cat {infile} > {outfile}"
    "64g" "job" "sam" ["f1"]).2 (by decide) (by decide) (by decide)
    (by decide) (by decide)

theorem buildMerges_error {rks : List String} {p o : String} {hc : Bool}
    {e : PyError} (h : buildMerges rks p o hc = .error e) : e = .indexError := by
  unfold buildMerges at h
  cases hc with
  | true => simp at h
  | false =>
    cases hg : (ordinaryMerges rks p o).getLast? with
    | none => rw [hg] at h; simp at h; exact h.symm
    | some m => rw [hg] at h; simp at h

theorem buildMerges_ok (rks : List String) (p o : String) (hc : Bool)
    (h : rks ≠ []) : ∃ ms, buildMerges rks p o hc = .ok ms := by
  cases hc with
  | true => exact ⟨_, rfl⟩
  | false =>
    cases hg : (ordinaryMerges rks p o).getLast? with
    | none =>
      rw [List.getLast?_eq_none_iff] at hg
      unfold ordinaryMerges at hg
      simp at hg
      exact absurd hg h
    | some m =>
      exact ⟨(ordinaryMerges rks p o).dropLast ++
        [m.dropLast ++ ["--rename"] ++ [m.getLastD ""]],
        by simp [buildMerges, hg]⟩

theorem buildMerges_length {rks : List String} {p o : String} {hc : Bool}
    {ms : List (List String)} (h : buildMerges rks p o hc = .ok ms) :
    ms.length = rks.length + (if hc then 1 else 0) := by
  unfold buildMerges at h
  cases hc with
  | true =>
    simp at h
    subst h
    simp [ordinaryMerges]
  | false =>
    cases hg : (ordinaryMerges rks p o).getLast? with
    | none => rw [hg] at h; simp at h
    | some m =>
      rw [hg] at h
      simp at h
      subst h
      have hne : ordinaryMerges rks p o ≠ [] := by
        intro hnil
        rw [hnil] at hg
        simp at hg
      have hlen : 1 ≤ rks.length := by
        rcases rks with _ | ⟨x, xs⟩
        · simp [ordinaryMerges] at hne
        · simp
      simp [List.length_dropLast, ordinaryMerges]
      omega

/-- C9: the merge scheduler fails with the `n_merges < 32` assertion exactly
when the number of merge tasks (one per partition key, plus one when a
secondary per-gene source exists) is not strictly below 32; with 6 partition
keys and no secondary source it succeeds with 6 tasks. -/
theorem claim_C9 :
    (∀ (rks : List String) (prepI out : String) (hc : Bool),
      (∃ m, mergeScheduler rks prepI out hc = .error (.assertionError m)) ↔
        ¬ (rks.length + (if hc then 1 else 0) < 32)) ∧
    (∀ (rks : List String) (prepI out : String), rks.length = 6 →
      ∃ ms, mergeScheduler rks prepI out false = .ok ms ∧ ms.length = 6) := by
  constructor
  · intro rks prepI out hc
    constructor
    · rintro ⟨m, hm⟩
      unfold mergeScheduler at hm
      cases hb : buildMerges rks prepI out hc with
      | error e =>
        rw [hb] at hm
        simp at hm
        have := buildMerges_error hb
        subst this
        exact absurd hm.symm (by simp)
      | ok ms =>
        rw [hb] at hm
        by_cases hlt : ms.length < 32
        · simp [hlt] at hm
        · have hlen := buildMerges_length hb
          cases hc <;> simp at hlen ⊢ <;> omega
    · intro hge
      have hne : rks ≠ [] := by
        intro hnil
        subst hnil
        cases hc <;> simp at hge
      obtain ⟨ms, hb⟩ := buildMerges_ok rks prepI out hc hne
      have hlen := buildMerges_length hb
      refine ⟨"n_merges < 32", ?_⟩
      unfold mergeScheduler
      rw [hb]
      have hnlt : ¬ (ms.length < 32) := by
        cases hc <;> simp at hlen hge <;> omega
      simp [hnlt]
  · intro rks prepI out h6
    have hne : rks ≠ [] := by
      intro hnil
      subst hnil
      simp at h6
    obtain ⟨ms, hb⟩ := buildMerges_ok rks prepI out false hne
    have hlen := buildMerges_length hb
    simp at hlen
    refine ⟨ms, ?_, by omega⟩
    unfold mergeScheduler
    rw [hb]
    have hlt : ms.length < 32 := by omega
    simp [hlt]

/-- Witness for C9: six partition keys, no secondary source. -/
theorem claim_C9_witness :
    ∃ ms, mergeScheduler ["r1", "r2", "r3", "r4", "r5", "r6"] "prep.tsv"
      "out" false = .ok ms ∧ ms.length = 6 :=
  claim_C9.2 ["r1", "r2", "r3", "r4", "r5", "r6"] "prep.tsv" "out" (by decide)

/-- C10: when no file of the database glob ends in `.tax`, the `[0]` lookup
in `_process_database_files` raises `IndexError` unhandled, so both
`woltka_to_array` and `woltka` abort before doing any other work; at least
one `.tax` match is an unstated precondition of both, while the `.coords`
companion is genuinely optional (`None` when absent, still `.ok`). -/
theorem claim_C10 :
    (∀ dbFiles : List String,
      dbFiles.filter (fun f => strEndsWith f ".tax") = [] →
      _process_database_files dbFiles = .error .indexError) ∧
    (∀ (dbFiles : List String) (directory output database_bowtie2
        preparation_information url name environment : String) (prep : Prep),
      dbFiles.filter (fun f => strEndsWith f ".tax") = [] →
      woltka_to_array dbFiles directory output database_bowtie2
        preparation_information url name environment prep =
        .error .indexError) ∧
    (∀ (dbFiles : List String) (ex : String → Bool) (out_dir : String),
      dbFiles.filter (fun f => strEndsWith f ".tax") = [] →
      woltka dbFiles ex out_dir = .error .indexError) ∧
    (∀ (dbFiles : List String) (t : String) (ts : List String),
      dbFiles.filter (fun f => strEndsWith f ".tax") = t :: ts →
      dbFiles.filter (fun f => strEndsWith f ".coords") = [] →
      _process_database_files dbFiles = .ok (t, none)) := by
  refine ⟨fun dbFiles h => pdf_err h, ?_, ?_, ?_⟩
  · intro dbFiles d o b p u n e prep h
    unfold woltka_to_array
    rw [pdf_err h]
  · intro dbFiles ex o h
    unfold woltka
    rw [pdf_err h]
  · intro dbFiles t ts h hc
    rw [pdf_ok h, hc]
    rfl

/-- Witness for C10: a database glob with no `.tax` match makes the
validator abort with `IndexError`. -/
theorem claim_C10_witness :
    woltka ["genome.fasta"] (fun _ => true) "out" = .error .indexError :=
  claim_C10.2.2.1 ["genome.fasta"] (fun _ => true) "out" (by decide)

end QpWoltka
